import Mathlib

/-!
Shallow embedding of the core of `affy2vcf.c` (gtc2vcf repository) and
verification of the specification claims about it.

Conventions used throughout:
* Byte streams are `List Nat` (each element one byte, 0..255 intended);
  text streams are `List Char`.
* C `float` arithmetic is modelled exactly over `ℚ` (for the purely
  rational cluster-adjustment code) or `ℝ` (for the logarithmic and
  trigonometric intensity code); the float literal `0.2f` is modelled as
  the exact rational `1/5`, `M_LOG2E` as `1 / Real.log 2`, `M_LN2` as
  `Real.log 2` and `M_2_PI` as `2 / Real.pi`.
* Fatal calls to `error(...)` are modelled as `Except.error`/`.fatal`
  values carrying an abbreviation of the C format string.
* C strings are modelled as `List Char` not containing the NUL character;
  the empty list plays the role of the `dest[0] == '\0'` sentinel.
-/

/-! ### Genotype call decoding (affy2vcf.c lines 43-46, 1780-1792, 2338-2368) -/

/-- `#define GT_NC -1` (affy2vcf.c line 43). -/
def GT_NC : Int := -1

/-- `#define GT_AA 0` (affy2vcf.c line 44). -/
def GT_AA : Int := 0

/-- `#define GT_AB 1` (affy2vcf.c line 45). -/
def GT_AB : Int := 1

/-- `#define GT_BB 2` (affy2vcf.c line 46). -/
def GT_BB : Int := 2

/-- The fixed 16-entry lookup table `static const int gt[16]` of
`varitr_loop` (affy2vcf.c lines 1780-1781):
`{-1, -1, -1, -1, -1, -1, GT_AA, GT_BB, GT_AB, -1, -1, GT_NC, -1, -1, -1, -1}`. -/
def gtTable : List Int :=
  [-1, -1, -1, -1, -1, -1, GT_AA, GT_BB, GT_AB, -1, -1, GT_NC, -1, -1, -1, -1]

/-- Decoding of one call byte in binary (CHP) mode:
`gt[data_set->buffer[col_offsets[1]] & 0x0F]` (affy2vcf.c line 1792). -/
def decodeCall (b : Nat) : Int := gtTable.getD (b % 16) (-1)

/-- The value stored in `gt_arr` for one sample by the genotype switch of
`process` (affy2vcf.c lines 2341-2366): either a pair of allele indices or
the missing marker pair (`bcf_gt_missing` twice). -/
inductive GtOut where
  | missingPair : GtOut
  | pair : Int → Int → GtOut
deriving DecidableEq

/-- The genotype emission switch of `process` (affy2vcf.c lines 2341-2366):
`GT_NC` emits the missing pair, `GT_AA`/`GT_AB`/`GT_BB` emit allele-index
pairs, and any other value hits the `default:` branch, a fatal
`error("Genotype for Probe Set ID %s is malformed: %d")`. -/
def processGenotype (g : Int) (alleleA alleleB : Int) : Except String GtOut :=
  if g = GT_NC then Except.ok GtOut.missingPair
  else if g = GT_AA then Except.ok (GtOut.pair alleleA alleleA)
  else if g = GT_AB then Except.ok (GtOut.pair (min alleleA alleleB) (max alleleA alleleB))
  else if g = GT_BB then Except.ok (GtOut.pair alleleB alleleB)
  else Except.error "Genotype for Probe Set ID is malformed"

/-! ### Big-endian primitives and the XDA header reader
(affy2vcf.c lines 95-112 and 201-245) -/

/-- Big-endian (network-order) interpretation of four bytes: the value
`ntohl` produces, on any host, from the four stream bytes in order. -/
def beU32 (b0 b1 b2 b3 : Nat) : Nat := ((b0 * 256 + b1) * 256 + b2) * 256 + b3

/-- Little-endian interpretation of four bytes: what `read_bytes` into a
native `int32_t` yields on a little-endian host. -/
def leU32 (b0 b1 b2 b3 : Nat) : Nat := ((b3 * 256 + b2) * 256 + b1) * 256 + b0

/-- Host-native interpretation of four stream bytes, parameterised by the
host's byte order (`hostLE = true` for a little-endian host). -/
def nativeU32 (hostLE : Bool) (b0 b1 b2 b3 : Nat) : Nat :=
  if hostLE then leU32 b0 b1 b2 b3 else beU32 b0 b1 b2 b3

/-- `read_long` (affy2vcf.c lines 95-101): reads four bytes and applies
`ntohl`, i.e. always produces the big-endian interpretation, with no
dependence on the host byte order. `none` models the fatal truncation
error of `read_bytes`. -/
def read_long : List Nat → Option (Nat × List Nat)
  | b0 :: b1 :: b2 :: b3 :: rest => some (beU32 b0 b1 b2 b3, rest)
  | _ => none

/-- A raw four-byte `read_bytes` into a native `int32_t`/`uint32_t`, as
done for every header field of `xda_cel_init` (affy2vcf.c lines 207-242):
no `ntohl` is applied, so the value depends on the host byte order. -/
def read_i32_native (hostLE : Bool) : List Nat → Option (Nat × List Nat)
  | b0 :: b1 :: b2 :: b3 :: rest => some (nativeU32 hostLE b0 b1 b2 b3, rest)
  | _ => none

/-- The header fields of `xda_cel_t` filled in by the header part of
`xda_cel_init` (affy2vcf.c lines 178-199, 207-242). -/
structure XdaHeader where
  version : Nat
  num_rows : Nat
  num_cols : Nat
  num_cells : Nat
  n_header : Nat
  header : List Nat
  n_algorithm : Nat
  algorithm : List Nat
  n_parameters : Nat
  parameters : List Nat
  cell_margin : Nat
  num_outlier_cells : Nat
  num_masked_cells : Nat
  num_sub_grids : Nat
deriving DecidableEq

/-- Reads `n` raw bytes (`read_bytes` with a buffer); fails on truncation. -/
def readBytesN (n : Nat) (s : List Nat) : Option (List Nat × List Nat) :=
  if s.length < n then none else some (s.take n, s.drop n)

/-- The header portion of `xda_cel_init` (affy2vcf.c lines 207-245, the
part executed before the `if (flags) return` early exit): magic and
version are validated (fatal mismatch), then rows, columns, cell count,
three length-prefixed text blocks, cell margin and the three array counts
are read. Every multi-byte field is read with a raw `read_bytes` into a
native integer, so the whole parse is parameterised by the host byte
order `hostLE`. -/
def xda_cel_init_header (hostLE : Bool) (s : List Nat) : Except String XdaHeader :=
  match read_i32_native hostLE s with
  | none => Except.error "Failed to read bytes from stream"
  | some (magic, s) =>
    if magic ≠ 64 then Except.error "XDA CEL file magic number should be 64"
    else match read_i32_native hostLE s with
    | none => Except.error "Failed to read bytes from stream"
    | some (version, s) =>
      if version ≠ 4 then Except.error "Unsupported XDA CEL file format version"
      else match read_i32_native hostLE s with
      | none => Except.error "Failed to read bytes from stream"
      | some (num_rows, s) =>
        match read_i32_native hostLE s with
        | none => Except.error "Failed to read bytes from stream"
        | some (num_cols, s) =>
          match read_i32_native hostLE s with
          | none => Except.error "Failed to read bytes from stream"
          | some (num_cells, s) =>
            match read_i32_native hostLE s with
            | none => Except.error "Failed to read bytes from stream"
            | some (n_header, s) =>
              match readBytesN n_header s with
              | none => Except.error "Failed to read bytes from stream"
              | some (header, s) =>
                match read_i32_native hostLE s with
                | none => Except.error "Failed to read bytes from stream"
                | some (n_algorithm, s) =>
                  match readBytesN n_algorithm s with
                  | none => Except.error "Failed to read bytes from stream"
                  | some (algorithm, s) =>
                    match read_i32_native hostLE s with
                    | none => Except.error "Failed to read bytes from stream"
                    | some (n_parameters, s) =>
                      match readBytesN n_parameters s with
                      | none => Except.error "Failed to read bytes from stream"
                      | some (parameters, s) =>
                        match read_i32_native hostLE s with
                        | none => Except.error "Failed to read bytes from stream"
                        | some (cell_margin, s) =>
                          match read_i32_native hostLE s with
                          | none => Except.error "Failed to read bytes from stream"
                          | some (num_outlier_cells, s) =>
                            match read_i32_native hostLE s with
                            | none => Except.error "Failed to read bytes from stream"
                            | some (num_masked_cells, s) =>
                              match read_i32_native hostLE s with
                              | none => Except.error "Failed to read bytes from stream"
                              | some (num_sub_grids, _) =>
                                Except.ok ⟨version, num_rows, num_cols, num_cells,
                                  n_header, header, n_algorithm, algorithm,
                                  n_parameters, parameters, cell_margin,
                                  num_outlier_cells, num_masked_cells, num_sub_grids⟩

/-- A concrete little-endian XDA CEL header stream: magic 64, version 4,
rows 2, cols 3, cells 6, empty text blocks, zero margin and counts. -/
def xdaLeStream : List Nat :=
  [64, 0, 0, 0, 4, 0, 0, 0, 2, 0, 0, 0, 3, 0, 0, 0, 6, 0, 0, 0,
   0, 0, 0, 0, 0, 0, 0, 0, 0, 0, 0, 0, 0, 0, 0, 0, 0, 0, 0, 0,
   0, 0, 0, 0, 0, 0, 0, 0]

/-! ### Column byte offsets of a Calvin data set
(`agcc_read_data_set`, affy2vcf.c lines 490-496) -/

/-- Modulus of the `uint32_t` accumulator `n_buffer`. -/
def UINT32_MOD : Nat := 4294967296

/-- The offset-computation loop of `agcc_read_data_set` (affy2vcf.c lines
491-495): `n_buffer = 0; for (i) { col_offsets[i] = n_buffer; n_buffer +=
col_headers[i].size; }` with `uint32_t` wrap-around on the accumulator. -/
def colOffsetsGo : List Nat → Nat → List Nat × Nat
  | [], nbuf => ([], nbuf)
  | sz :: rest, nbuf =>
    let r := colOffsetsGo rest ((nbuf + sz) % UINT32_MOD)
    (nbuf :: r.1, r.2)

/-- Column byte offsets and total row byte width (`col_offsets[]` and the
final `n_buffer`) computed by `agcc_read_data_set` from the column byte
widths. -/
def computeColOffsets (sizes : List Nat) : List Nat × Nat := colOffsetsGo sizes 0

/-! ### Probe-set identifier checks (affy2vcf.c lines 1605, 1749-1772) -/

/-- `#define MAX_LENGTH_PROBE_SET_ID 17` (affy2vcf.c line 1605); the
iterator's buffer `char probe_set_id[MAX_LENGTH_PROBE_SET_ID + 1]` has
18 bytes, one reserved for the terminating NUL. -/
def MAX_LENGTH_PROBE_SET_ID : Nat := 17

/-- `check_n_probe_set_id` (affy2vcf.c lines 1749-1760), used on the
binary path with an explicit byte count `n` (here `src.length`): when the
reference `dest` is still unset (empty), a too-long name is fatal and the
name is copied NUL-terminated; otherwise `strncmp(dest, src, n)` is
checked, which passes exactly when `src` coincides with the first
`src.length` characters of `dest`. -/
def check_n_probe_set_id (dest src : List Char) : Except String (List Char) :=
  if dest = [] then
    if src.length > MAX_LENGTH_PROBE_SET_ID then
      Except.error "Probe Set Name is too long"
    else Except.ok src
  else
    if dest.take src.length = src then Except.ok dest
    else Except.error "Probe Set Name mismatch"

/-- `check_probe_set_id` (affy2vcf.c lines 1762-1772), used on the text
path: when the reference `dest` is still unset (empty), a too-long name
is fatal and the name is copied; otherwise `strcmp` demands exact
equality. -/
def check_probe_set_id (dest src : List Char) : Except String (List Char) :=
  if dest = [] then
    if src.length > MAX_LENGTH_PROBE_SET_ID then
      Except.error "Probe Set Name is too long"
    else Except.ok src
  else
    if dest = src then Except.ok dest
    else Except.error "Probe Set Name mismatch"

/-- The loop of `check_n_probe_set_id` calls over the per-sample
identifiers, threading the reference buffer; the first fatal error stops
the run. -/
def checkFoldN : List Char → List (List Char) → Except String (List Char)
  | dest, [] => Except.ok dest
  | dest, src :: rest =>
    match check_n_probe_set_id dest src with
    | Except.error e => Except.error e
    | Except.ok dest2 => checkFoldN dest2 rest

/-- The per-iteration sequence of `check_n_probe_set_id` calls of the
binary branch of `varitr_loop` (affy2vcf.c lines 1776, 1789-1791): the
buffer starts empty (`varitr->probe_set_id[0] = '\0'`) and each sample's
decoded identifier is checked in turn. -/
def checkAllN (ids : List (List Char)) : Except String (List Char) :=
  checkFoldN [] ids

/-- The loop of `check_probe_set_id` calls over the present text tables,
threading the reference buffer. -/
def checkFold : List Char → List (List Char) → Except String (List Char)
  | dest, [] => Except.ok dest
  | dest, src :: rest =>
    match check_probe_set_id dest src with
    | Except.error e => Except.error e
    | Except.ok dest2 => checkFold dest2 rest

/-- The per-iteration sequence of `check_probe_set_id` calls of the text
branch of `varitr_loop` (affy2vcf.c lines 1841, 1854, 1902): one call per
present table, starting from the empty buffer. -/
def checkAll (ids : List (List Char)) : Except String (List Char) :=
  checkFold [] ids

/-! ### Text-mode summary pairing (affy2vcf.c lines 1858-1903) -/

/-- `hts_getline(... KS_SEP_LINE ...)`: on an empty stream it returns a
negative value (modelled `none`); otherwise it consumes one line up to
and including its terminating newline. -/
def getLine (s : List Char) : Option (List Char × List Char) :=
  match s with
  | [] => none
  | _ => some (s.takeWhile (fun c => c ≠ '\n'), (s.dropWhile (fun c => c ≠ '\n')).drop 1)

/-- `ksplit_core(str.s, '\t', ...)`: splits a line at tab characters; the
number of fields is the number of tabs plus one. -/
def splitTab : List Char → List (List Char)
  | [] => [[]]
  | c :: rest =>
    if c = '\t' then [] :: splitTab rest
    else
      match splitTab rest with
      | [] => [[c]]
      | f :: fs => (c :: f) :: fs

/-- Outcome of one iteration of the `do { ... } while` body that scans the
summary file in `varitr_loop` (affy2vcf.c lines 1860-1881), plus the
subsequent consumption of the matched companion line (lines 1885-1902):
`eof` models the `return -1` on a failed `hts_getline`; `skip rest` is
the case in which the look-ahead peek does not confirm a matching "-B"
companion, so the loop body runs again on the remaining stream; `paired`
carries the stripped identifier of the consumed "-B" line, the signal-A
and the signal-B fields, and the remaining stream. -/
inductive SummaryStep where
  | eof : SummaryStep
  | fatal : String → SummaryStep
  | skip : List Char → SummaryStep
  | paired : List Char → List (List Char) → List (List Char) → List Char → SummaryStep
deriving DecidableEq

/-- One pass of the summary-line scanning logic of `varitr_loop`
(affy2vcf.c lines 1858-1902), faithful to the order of checks: line read
(EOF ⇒ `return -1`), column count (fatal mismatch), the "-A" suffix test
on the first field (fatal failure; for a field shorter than two
characters the C code indexes before the field, modelled here as a failed
test), the identifier length bound (fatal), then the `hpeek` look-ahead
compares the first `len` raw bytes of the remaining stream against the
expected `prefix ++ "-B"`; a failed comparison re-runs the whole body on
the remaining stream (`skip`), a successful one consumes the companion
line (fatal if absent or with wrong column count). -/
def summaryStep (nsmpl : Nat) (stream : List Char) : SummaryStep :=
  match getLine stream with
  | none => SummaryStep.eof
  | some (line, rest) =>
    let cols := splitTab line
    if cols.length ≠ 1 + nsmpl then
      SummaryStep.fatal "Expected columns in the summary file"
    else
      let id0 := cols.getD 0 []
      let len := id0.length
      if id0.getD (len - 2) '\x00' ≠ '-' ∨ id0.getD (len - 1) '\x00' ≠ 'A' then
        SummaryStep.fatal "Found Probe Set ID while a -A was expected"
      else
        let stem := id0.take (len - 2)
        if len - 2 > MAX_LENGTH_PROBE_SET_ID then
          SummaryStep.fatal "Cannot read Probe Set intensities"
        else
          let buf := rest.take len
          let ret := min len rest.length
          if ret < len ∨ buf.take (len - 2) ≠ stem ∨ buf.getD (len - 2) '\x00' ≠ '-' ∨
              buf.getD (len - 1) '\x00' ≠ 'B' then
            SummaryStep.skip rest
          else
            match getLine rest with
            | none => SummaryStep.fatal "Summary file ended prematurely"
            | some (lineB, restB) =>
              if lineB.length = 0 then SummaryStep.fatal "Summary file ended prematurely"
              else
                let colsB := splitTab lineB
                if colsB.length ≠ 1 + nsmpl then
                  SummaryStep.fatal "Expected columns in the summary file"
                else
                  let idB := colsB.getD 0 []
                  SummaryStep.paired (idB.take (idB.length - 2)) (cols.drop 1)
                    (colsB.drop 1) restB

/-- Result of reading one probe set's intensities from the summary file:
normal end of iteration, a fatal error, or the stripped probe-set
identifier together with the per-sample signal-A and signal-B fields and
the unconsumed remainder of the stream. -/
inductive SummaryResult where
  | eof : SummaryResult
  | fatal : String → SummaryResult
  | ok : List Char → List (List Char) → List (List Char) → List Char → SummaryResult
deriving DecidableEq

/-- Fuelled unfolding of the `do { ... } while` loop: each `skip` re-runs
`summaryStep` on the remaining stream.  The fuel case 0 is unreachable
whenever the fuel exceeds the stream length, since every `skip` strictly
shortens the stream. -/
def summaryReadAux : Nat → Nat → List Char → SummaryResult
  | 0, _, _ => SummaryResult.fatal "fuel exhausted"
  | fuel + 1, nsmpl, stream =>
    match summaryStep nsmpl stream with
    | SummaryStep.eof => SummaryResult.eof
    | SummaryStep.fatal m => SummaryResult.fatal m
    | SummaryStep.skip rest => summaryReadAux fuel nsmpl rest
    | SummaryStep.paired i a b rest => SummaryResult.ok i a b rest

/-- The summary-reading part of `varitr_loop` (affy2vcf.c lines
1858-1902): the scanning loop run to completion. -/
def summaryRead (nsmpl : Nat) (stream : List Char) : SummaryResult :=
  summaryReadAux (stream.length + 1) nsmpl stream

/-- The concrete summary stream used to settle the pairing claims: an
unpaired line `foo-A`, then a properly paired `bar-A`/`bar-B` couple, for
one sample. -/
def exSummaryStream : List Char := "foo-A\t1\nbar-A\t2\nbar-B\t3\n".toList

/-! ### Normalised intensity transforms (affy2vcf.c lines 1800-1824 and
1885-1901) -/

/-- `logf(x) * M_LOG2E` (affy2vcf.c lines 1820-1821): the base-2
logarithm, modelled exactly over `ℝ`. -/
noncomputable def log2f (x : ℝ) : ℝ := Real.log x * (1 / Real.log 2)

/-- `delta = log2x - log2y` for the binary "Signal A / Signal B" encoding
(affy2vcf.c line 1822). -/
noncomputable def signalDelta (a b : ℝ) : ℝ := log2f a - log2f b

/-- `size = (log2x + log2y) * 0.5f` for the binary "Signal A / Signal B"
encoding (affy2vcf.c line 1823). -/
noncomputable def signalSize (a b : ℝ) : ℝ := (log2f a + log2f b) * (1 / 2)

/-- `delta = log2x - log2y` in the text-mode summary branch (affy2vcf.c
line 1899). -/
noncomputable def summaryDelta (a b : ℝ) : ℝ := log2f a - log2f b

/-- `size = (log2x + log2y) * 0.5f` in the text-mode summary branch
(affy2vcf.c line 1900). -/
noncomputable def summarySize (a b : ℝ) : ℝ := (log2f a + log2f b) * (1 / 2)

/-! ### Cluster models (affy2vcf.c lines 1068-1092),
adjustment (lines 2127-2167) and projection (lines 2198-2234) -/

/-- `cluster_t` (affy2vcf.c lines 1068-1076), parameterised by the number
type used to model `float`. -/
structure ClusterT (α : Type) where
  xm : α
  xss : α
  k : α
  v : α
  ym : α
  yss : α
  xyss : α
deriving DecidableEq

/-- `snp_t` (affy2vcf.c lines 1078-1084). -/
structure SnpT (α : Type) where
  probe_set_id : String
  copynumber : Int
  aa : ClusterT α
  ab : ClusterT α
  bb : ClusterT α
deriving DecidableEq

/-- The prior-scaling prologue of `adjust_clusters` (affy2vcf.c lines
2129-2137): each cluster's two means are multiplied by `0.2f` and its
pseudo-count `k` is reset to `0.2f`. -/
def adjustPrior {α : Type} [Field α] (snp : SnpT α) : SnpT α :=
  { snp with
    aa := { snp.aa with xm := snp.aa.xm * (1 / 5), ym := snp.aa.ym * (1 / 5), k := 1 / 5 },
    ab := { snp.ab with xm := snp.ab.xm * (1 / 5), ym := snp.ab.ym * (1 / 5), k := 1 / 5 },
    bb := { snp.bb with xm := snp.bb.xm * (1 / 5), ym := snp.bb.ym * (1 / 5), k := 1 / 5 } }

/-- One iteration of the accumulation loop of `adjust_clusters`
(affy2vcf.c lines 2139-2159): the observation `(gts[i], x[i], y[i])` adds
its coordinates to the called cluster's means and increments that
cluster's `k`; any other call value (including `GT_NC`) falls through the
`default:` branch and changes nothing. -/
def adjustStep {α : Type} [Field α] (snp : SnpT α) (o : Int × α × α) : SnpT α :=
  if o.1 = GT_AA then
    { snp with aa := { snp.aa with
        k := snp.aa.k + 1, xm := snp.aa.xm + o.2.1, ym := snp.aa.ym + o.2.2 } }
  else if o.1 = GT_AB then
    { snp with ab := { snp.ab with
        k := snp.ab.k + 1, xm := snp.ab.xm + o.2.1, ym := snp.ab.ym + o.2.2 } }
  else if o.1 = GT_BB then
    { snp with bb := { snp.bb with
        k := snp.bb.k + 1, xm := snp.bb.xm + o.2.1, ym := snp.bb.ym + o.2.2 } }
  else snp

/-- The final divisions of `adjust_clusters` (affy2vcf.c lines
2161-2166): each cluster's two accumulated means are divided by its
accumulated pseudo-count. -/
def adjustDivide {α : Type} [Field α] (snp : SnpT α) : SnpT α :=
  { snp with
    aa := { snp.aa with xm := snp.aa.xm / snp.aa.k, ym := snp.aa.ym / snp.aa.k },
    ab := { snp.ab with xm := snp.ab.xm / snp.ab.k, ym := snp.ab.ym / snp.ab.k },
    bb := { snp.bb with xm := snp.bb.xm / snp.bb.k, ym := snp.bb.ym / snp.bb.k } }

/-- `adjust_clusters` (affy2vcf.c lines 2127-2167), with the parallel
arrays `gts`, `x`, `y` of length `n` modelled as one list of
`(call, dim1, dim2)` triples. -/
def adjust_clusters {α : Type} [Field α] (obs : List (Int × α × α)) (snp : SnpT α) : SnpT α :=
  adjustDivide (obs.foldl adjustStep (adjustPrior snp))

/-- Number of observations called as cluster `g`, cast into the number
type (the pseudo-count `k` accumulates it by repeated `k++`). -/
def countCall {α : Type} [Field α] (g : Int) (obs : List (Int × α × α)) : α :=
  ((obs.filter fun o => o.1 == g).length : α)

/-- Sum of the first-dimension values of the observations called as `g`. -/
def sumDim1 {α : Type} [Field α] (g : Int) (obs : List (Int × α × α)) : α :=
  ((obs.filter fun o => o.1 == g).map fun o => o.2.1).sum

/-- Sum of the second-dimension values of the observations called as `g`. -/
def sumDim2 {α : Type} [Field α] (g : Int) (obs : List (Int × α × α)) : α :=
  ((obs.filter fun o => o.1 == g).map fun o => o.2.2).sum

/-- Polar angle of one cluster centre in `compute_baf_lrr` (affy2vcf.c
lines 2204-2206 for the birdseed dialect, 2211-2213 for the BRLMM-P
dialect), scaled into `[0,1]` by `M_2_PI`. -/
noncomputable def clusterTheta (is_birdseed : Bool) (c : ClusterT ℝ) : ℝ :=
  if is_birdseed then Real.arctan (c.ym / c.xm) * (2 / Real.pi)
  else Real.arctan (Real.exp (-c.xm * Real.log 2)) * (2 / Real.pi)

/-- Radial coordinate of one cluster centre in `compute_baf_lrr`
(affy2vcf.c lines 2207-2209 and 2214-2219); the BRLMM-P dialect
exponentiates the log2-scaled size and applies the hyperbolic-cosine
correction. -/
noncomputable def clusterR (is_birdseed : Bool) (c : ClusterT ℝ) : ℝ :=
  if is_birdseed then c.xm + c.ym
  else Real.exp (c.ym * Real.log 2) * 2 * Real.cosh (c.xm * (1 / 2) * Real.log 2)

/-- The cluster-positioning part of `compute_baf_lrr` (affy2vcf.c lines
2201-2226): the three cluster centres in `(theta, r)` form, with the
copy-number-1 override that synthesises the AB position as the midpoint
of the AA and BB positions (lines 2223-2226). Returned as
`((aa_theta, aa_r), ((ab_theta, ab_r), (bb_theta, bb_r)))`. -/
noncomputable def projectClusters (is_birdseed : Bool) (snp : SnpT ℝ) :
    (ℝ × ℝ) × (ℝ × ℝ) × (ℝ × ℝ) :=
  let aaT := clusterTheta is_birdseed snp.aa
  let abT := clusterTheta is_birdseed snp.ab
  let bbT := clusterTheta is_birdseed snp.bb
  let aaR := clusterR is_birdseed snp.aa
  let abR := clusterR is_birdseed snp.ab
  let bbR := clusterR is_birdseed snp.bb
  let abT2 := if snp.copynumber = 1 then (aaT + bbT) * (1 / 2) else abT
  let abR2 := if snp.copynumber = 1 then (aaR + bbR) * (1 / 2) else abR
  ((aaT, aaR), ((abT2, abR2), (bbT, bbR)))

/-- Per-sample polar form computed inside the loop of `compute_baf_lrr`
(affy2vcf.c lines 2229-2230). -/
noncomputable def sampleThetaR (x y : ℝ) : ℝ × ℝ :=
  (Real.arctan (y / x) * (2 / Real.pi), x + y)

/-- `compute_baf_lrr` up to its delegation to the external `get_baf_lrr`
interpolation routine (affy2vcf.c lines 2198-2234): the correctly scaled
cluster and sample `(theta, r)` inputs. The model `snp` is taken by
`const` pointer in C and is not modified; correspondingly this is a pure
function of `(is_birdseed, snp, samples)`. -/
noncomputable def compute_baf_lrr_inputs (is_birdseed : Bool) (snp : SnpT ℝ)
    (samples : List (ℝ × ℝ)) : ((ℝ × ℝ) × (ℝ × ℝ) × (ℝ × ℝ)) × List (ℝ × ℝ) :=
  (projectClusters is_birdseed snp, samples.map fun p => sampleThetaR p.1 p.2)

/-- A concrete diploid ℚ-valued probe-set model with all prior means 10,
used to instantiate the cluster-adjustment example. -/
def exClusterQ : ClusterT ℚ := ⟨10, 3, 7, 11, 10, 5, 9⟩

/-- A concrete diploid probe-set model for the adjustment example. -/
def exSnpQ : SnpT ℚ := ⟨"AX-1", 2, exClusterQ, exClusterQ, exClusterQ⟩

/-- A concrete haploid (copy-number 1) real-valued probe-set model for
the projection example. -/
noncomputable def exSnpR : SnpT ℝ :=
  ⟨"AX-2", 1, ⟨1, 1, 1, 1, 2, 1, 1⟩, ⟨3, 1, 1, 1, 4, 1, 1⟩, ⟨5, 1, 1, 1, 6, 1, 1⟩⟩

/-! ### Theorems -/

/-- C1, counterexample: the call byte 0 has low 4 bits 0, outside the
valid set {6, 7, 8, 11}, yet the lookup table sends it to -1, which is
the very value of the NoCall marker `GT_NC`; the emission switch of
`process` therefore emits the missing-genotype pair instead of reaching
its fatal `default:` branch. The claim that an invalid code aborts the
run (and is never emitted as a missing genotype) is false. -/
theorem c1_invalid_code_counterexample :
    (0 : Nat) % 16 ∉ ([6, 7, 8, 11] : List Nat) ∧
    decodeCall 0 = GT_NC ∧ GT_NC = -1 ∧
    processGenotype (decodeCall 0) 0 1 = Except.ok GtOut.missingPair :=
  ⟨by decide, by decide, by decide, rfl⟩

/-- C1 (amended): every advance decodes the low 4 bits of the call byte
through the fixed 16-entry table; codes 6, 7 and 8 decode to `GT_AA`,
`GT_BB` and `GT_AB` respectively, and every other 4-bit code — code 11
and all invalid codes alike — decodes to -1, which is identical to the
NoCall marker `GT_NC`. Consequently the genotype emission switch always
succeeds on a table-decoded value: an invalid code is silently emitted
as a missing genotype and never causes a fatal error. -/
theorem c1_call_code_decoding (b : Nat) (alleleA alleleB : Int) :
    (decodeCall b = GT_AA ↔ b % 16 = 6) ∧
    (decodeCall b = GT_BB ↔ b % 16 = 7) ∧
    (decodeCall b = GT_AB ↔ b % 16 = 8) ∧
    (decodeCall b = GT_NC ↔ ¬(b % 16 = 6 ∨ b % 16 = 7 ∨ b % 16 = 8)) ∧
    ∃ out, processGenotype (decodeCall b) alleleA alleleB = Except.ok out := by
  have h16 : b % 16 < 16 := Nat.mod_lt _ (by norm_num)
  unfold decodeCall
  set m := b % 16 with hm
  clear_value m
  interval_cases m <;>
    exact ⟨by decide, by decide, by decide, by decide, ⟨_, rfl⟩⟩

/-- The offset loop of `agcc_read_data_set` with an arbitrary starting
accumulator: as long as the total fits in the `uint32_t` accumulator the
wrap-around never fires, the final accumulator is the full sum and each
recorded offset is the prefix sum of the preceding widths. -/
theorem colOffsetsGo_spec (sizes : List Nat) :
    ∀ nbuf : Nat, nbuf + sizes.sum < UINT32_MOD →
    (colOffsetsGo sizes nbuf).2 = nbuf + sizes.sum ∧
    (colOffsetsGo sizes nbuf).1.length = sizes.length ∧
    ∀ i, i < sizes.length →
      (colOffsetsGo sizes nbuf).1.getD i 0 = nbuf + (sizes.take i).sum := by
  induction sizes with
  | nil => intro nbuf _; simp [colOffsetsGo]
  | cons sz rest ih =>
    intro nbuf h
    rw [List.sum_cons] at h
    have hmod : (nbuf + sz) % UINT32_MOD = nbuf + sz := Nat.mod_eq_of_lt (by omega)
    obtain ⟨h1, h2, h3⟩ := ih (nbuf + sz) (by omega)
    refine ⟨?_, ?_, ?_⟩
    · simp only [colOffsetsGo, hmod, h1, List.sum_cons]; omega
    · simp only [colOffsetsGo, hmod, List.length_cons, h2]
    · intro i hi
      match i with
      | 0 => simp [colOffsetsGo]
      | j + 1 =>
        simp only [colOffsetsGo, hmod, List.getD_cons_succ, List.take_succ_cons,
          List.sum_cons]
        rw [h3 j (by simpa using hi)]
        omega

/-- C8: after `agcc_read_data_set` processes the column table, the
recorded row byte width equals the sum of all column byte widths and the
offset recorded for column `i` equals the sum of the byte widths of
columns `0..i-1` (0 for the first column), for any column count
including zero — provided the total width fits the `uint32_t`
accumulator, so that its wrap-around modulus never fires. -/
theorem c8_dataset_offset_invariant (sizes : List Nat) (h : sizes.sum < UINT32_MOD) :
    (computeColOffsets sizes).2 = sizes.sum ∧
    (computeColOffsets sizes).1.length = sizes.length ∧
    ∀ i, i < sizes.length →
      (computeColOffsets sizes).1.getD i 0 = (sizes.take i).sum := by
  have := colOffsetsGo_spec sizes 0 (by simpa using h)
  simpa using this

/-- C8, witness: the invariant instantiated on a concrete three-column
table of byte widths 1, 4, 4. -/
theorem c8_dataset_offset_invariant_witness :
    (computeColOffsets [1, 4, 4]).2 = ([1, 4, 4] : List Nat).sum ∧
    (computeColOffsets [1, 4, 4]).1.length = ([1, 4, 4] : List Nat).length ∧
    ∀ i, i < ([1, 4, 4] : List Nat).length →
      (computeColOffsets [1, 4, 4]).1.getD i 0 = (([1, 4, 4] : List Nat).take i).sum :=
  c8_dataset_offset_invariant [1, 4, 4] (by decide)

/-- C7, counterexample: in binary mode the reference identifier "AB" is
set by the first sample; the second sample's identifier "A" differs from
it, yet `check_n_probe_set_id` succeeds, because `strncmp(dest, src, n)`
compares only the first `n = strlen(src)` characters: the iteration step
completes with two sources on different probe sets and no fatal error,
contradicting the claim. -/
theorem c7_prefix_mismatch_counterexample :
    checkAllN [['A', 'B'], ['A']] = Except.ok ['A', 'B'] ∧
    (['A'] : List Char) ≠ ['A', 'B'] ∧ (['A'] : List Char) ∈ [['A', 'B'], ['A']] :=
  ⟨rfl, by decide, by decide⟩

/-- Invariant of the binary-mode fold of `check_n_probe_set_id`: when the
whole fold succeeds with final reference `d`, the starting buffer and
every processed identifier coincide with the corresponding initial
segment of `d` — i.e. each identifier is only checked against its own
length. -/
theorem checkN_fold_spec (ids : List (List Char)) :
    ∀ dest d : List Char, checkFoldN dest ids = Except.ok d →
    d.take dest.length = dest ∧ ∀ x ∈ ids, d.take x.length = x := by
  induction ids with
  | nil =>
    intro dest d h
    simp only [checkFoldN] at h
    cases h
    simp
  | cons src rest ih =>
    intro dest d h
    simp only [checkFoldN] at h
    unfold check_n_probe_set_id at h
    by_cases hdest : dest = []
    · rw [if_pos hdest] at h
      by_cases hlen : src.length > MAX_LENGTH_PROBE_SET_ID
      · rw [if_pos hlen] at h
        exact absurd h (by simp)
      · rw [if_neg hlen] at h
        obtain ⟨h1, h2⟩ := ih src d h
        subst hdest
        refine ⟨by simp, fun x hx => ?_⟩
        rcases List.mem_cons.mp hx with hx | hx
        · subst hx; exact h1
        · exact h2 x hx
    · rw [if_neg hdest] at h
      by_cases hpre : dest.take src.length = src
      · rw [if_pos hpre] at h
        obtain ⟨h1, h2⟩ := ih dest d h
        refine ⟨h1, fun x hx => ?_⟩
        rcases List.mem_cons.mp hx with hx | hx
        · rw [hx]
          have hle : src.length ≤ dest.length := by
            have := congrArg List.length hpre
            simp only [List.length_take] at this
            omega
          calc d.take src.length = (d.take dest.length).take src.length := by
                rw [List.take_take, Nat.min_eq_left hle]
            _ = dest.take src.length := by rw [h1]
            _ = src := hpre
        · exact h2 x hx
      · rw [if_neg hpre] at h
        exact absurd h (by simp)

/-- Invariant of the text-mode fold of `check_probe_set_id`: provided no
identifier is the empty string (which the code uses internally as the
"unset" sentinel), a successful fold forces every identifier to equal
the final reference exactly. -/
theorem check_fold_spec (ids : List (List Char)) :
    ∀ dest d : List Char, (∀ x ∈ ids, x ≠ []) →
    checkFold dest ids = Except.ok d →
    (dest ≠ [] → d = dest) ∧ ∀ x ∈ ids, x = d := by
  induction ids with
  | nil =>
    intro dest d _ h
    simp only [checkFold] at h
    cases h
    exact ⟨fun _ => rfl, by simp⟩
  | cons src rest ih =>
    intro dest d hne h
    have hsrc : src ≠ [] := hne src (List.mem_cons_self src rest)
    have hne2 : ∀ x ∈ rest, x ≠ [] := fun x hx => hne x (List.mem_cons_of_mem src hx)
    simp only [checkFold] at h
    unfold check_probe_set_id at h
    by_cases hdest : dest = []
    · rw [if_pos hdest] at h
      by_cases hlen : src.length > MAX_LENGTH_PROBE_SET_ID
      · rw [if_pos hlen] at h
        exact absurd h (by simp)
      · rw [if_neg hlen] at h
        obtain ⟨h1, h2⟩ := ih src d hne2 h
        have hds : d = src := h1 hsrc
        refine ⟨fun hd => absurd hdest hd, fun x hx => ?_⟩
        rcases List.mem_cons.mp hx with hx | hx
        · rw [hx, hds]
        · exact h2 x hx
    · rw [if_neg hdest] at h
      by_cases heq : dest = src
      · rw [if_pos heq] at h
        obtain ⟨h1, h2⟩ := ih dest d hne2 h
        have hdd : d = dest := h1 hdest
        refine ⟨fun _ => hdd, fun x hx => ?_⟩
        rcases List.mem_cons.mp hx with hx | hx
        · rw [hx, ← heq, hdd]
        · exact h2 x hx
      · rw [if_neg heq] at h
        exact absurd h (by simp)

/-- C7 (amended): when an iteration step completes, the decoded
identifiers need not all be equal. In binary mode each later identifier
is compared with `strncmp` over its own length only, so a successful
step guarantees exactly that every decoded identifier is an initial
segment of the final reference (a proper prefix, or an empty identifier,
is accepted silently). In text mode the comparison is exact, so provided
all identifiers are nonempty (the empty string being the internal
"unset" sentinel), a successful step does force all identifiers to be
equal, the first one being the reference. -/
theorem c7_probe_set_agreement (ids : List (List Char)) (d : List Char) :
    (checkAllN ids = Except.ok d → ∀ x ∈ ids, d.take x.length = x) ∧
    ((∀ x ∈ ids, x ≠ []) → checkAll ids = Except.ok d →
      (∀ x ∈ ids, x = d) ∧ (ids ≠ [] → ids.headI = d)) := by
  constructor
  · intro h
    exact (checkN_fold_spec ids [] d h).2
  · intro hne h
    have hall := (check_fold_spec ids [] d hne h).2
    refine ⟨hall, fun hid => ?_⟩
    match ids, hid with
    | x :: rest, _ => exact hall x (List.mem_cons_self x rest)

/-- C7, witness: the amended statement applied to the concrete
counterexample step (binary mode, identifiers "AB" then "A") and to a
concrete agreeing text-mode step (identifiers "AB", "AB"). -/
theorem c7_probe_set_agreement_witness :
    (∀ x ∈ [['A', 'B'], ['A']], (['A', 'B'] : List Char).take x.length = x) ∧
    (∀ x ∈ [['A', 'B'], ['A', 'B']], x = (['A', 'B'] : List Char)) :=
  ⟨(c7_probe_set_agreement [['A', 'B'], ['A']] ['A', 'B']).1 rfl,
   ((c7_probe_set_agreement [['A', 'B'], ['A', 'B']] ['A', 'B']).2
      (by decide) rfl).1⟩

/-- C9: for every source kind, an identifier longer than
`MAX_LENGTH_PROBE_SET_ID = 17` characters is fatal — directly in the
reference-setting branch of both check functions, through the guaranteed
`strncmp`/`strcmp` mismatch in the comparison branch (the stored
reference never exceeds 17 characters), and through the explicit length
guard of the summary scanner; and every accepted identifier fits,
NUL-terminated, in the iterator's fixed 18-byte buffer
`char probe_set_id[MAX_LENGTH_PROBE_SET_ID + 1]`. -/
theorem c9_probe_set_id_length_limit (dest src : List Char)
    (hdest : dest.length ≤ MAX_LENGTH_PROBE_SET_ID) :
    (src.length > MAX_LENGTH_PROBE_SET_ID →
      (∀ d, check_n_probe_set_id dest src ≠ Except.ok d) ∧
      (∀ d, check_probe_set_id dest src ≠ Except.ok d)) ∧
    (∀ d, check_n_probe_set_id dest src = Except.ok d →
      d.length ≤ MAX_LENGTH_PROBE_SET_ID ∧ d.length < MAX_LENGTH_PROBE_SET_ID + 1 ∧
      (d = src ∨ d = dest)) ∧
    (∀ d, check_probe_set_id dest src = Except.ok d →
      d.length ≤ MAX_LENGTH_PROBE_SET_ID ∧ (d = src ∨ d = dest)) ∧
    (∀ nsmpl : Nat, ∀ stream line rest : List Char,
      getLine stream = some (line, rest) →
      (splitTab line).length = 1 + nsmpl →
      ((splitTab line).getD 0 []).getD (((splitTab line).getD 0 []).length - 2) '\x00'
        = '-' →
      ((splitTab line).getD 0 []).getD (((splitTab line).getD 0 []).length - 1) '\x00'
        = 'A' →
      ((splitTab line).getD 0 []).length - 2 > MAX_LENGTH_PROBE_SET_ID →
      summaryStep nsmpl stream = SummaryStep.fatal "Cannot read Probe Set intensities") := by
  refine ⟨?_, ?_, ?_, ?_⟩
  · intro hlong
    constructor
    · intro d hd
      unfold check_n_probe_set_id at hd
      by_cases hd0 : dest = []
      · rw [if_pos hd0, if_pos hlong] at hd
        cases hd
      · rw [if_neg hd0] at hd
        have hne : dest.take src.length ≠ src := by
          intro he
          have := congrArg List.length he
          simp only [List.length_take] at this
          omega
        rw [if_neg hne] at hd
        cases hd
    · intro d hd
      unfold check_probe_set_id at hd
      by_cases hd0 : dest = []
      · rw [if_pos hd0, if_pos hlong] at hd
        cases hd
      · rw [if_neg hd0] at hd
        have hne : dest ≠ src := by
          intro he
          rw [he] at hdest
          omega
        rw [if_neg hne] at hd
        cases hd
  · intro d hd
    unfold check_n_probe_set_id at hd
    by_cases hd0 : dest = []
    · rw [if_pos hd0] at hd
      by_cases hlen : src.length > MAX_LENGTH_PROBE_SET_ID
      · rw [if_pos hlen] at hd; cases hd
      · rw [if_neg hlen] at hd
        cases hd
        exact ⟨by omega, by omega, Or.inl rfl⟩
    · rw [if_neg hd0] at hd
      by_cases hpre : dest.take src.length = src
      · rw [if_pos hpre] at hd
        cases hd
        exact ⟨hdest, by omega, Or.inr rfl⟩
      · rw [if_neg hpre] at hd; cases hd
  · intro d hd
    unfold check_probe_set_id at hd
    by_cases hd0 : dest = []
    · rw [if_pos hd0] at hd
      by_cases hlen : src.length > MAX_LENGTH_PROBE_SET_ID
      · rw [if_pos hlen] at hd; cases hd
      · rw [if_neg hlen] at hd
        cases hd
        exact ⟨by omega, Or.inl rfl⟩
    · rw [if_neg hd0] at hd
      by_cases heq : dest = src
      · rw [if_pos heq] at hd
        cases hd
        exact ⟨hdest, Or.inr rfl⟩
      · rw [if_neg heq] at hd; cases hd
  · intro nsmpl stream line rest hget hcols hdash hA hlong
    unfold summaryStep
    rw [hget]
    simp only [hcols, hdash, hA]
    simp only [List.getD_eq_getElem?_getD] at hlong
    simp
    intro hcontra
    exfalso
    omega

/-- C9, witness: with the reference buffer holding the one-character
identifier "a", an 18-character identifier is rejected by both check
functions. -/
theorem c9_probe_set_id_length_limit_witness :
    (∀ d, check_n_probe_set_id ['a'] (List.replicate 18 'b') ≠ Except.ok d) ∧
    (∀ d, check_probe_set_id ['a'] (List.replicate 18 'b') ≠ Except.ok d) :=
  (c9_probe_set_id_length_limit ['a'] (List.replicate 18 'b') (by decide)).1 (by decide)

/-- Dropping a prefix cannot lengthen a list. -/
theorem dropWhile_length_le {α : Type} (p : α → Bool) :
    ∀ l : List α, (l.dropWhile p).length ≤ l.length := by
  intro l
  induction l with
  | nil => simp [List.dropWhile]
  | cons c t ih =>
    rw [List.dropWhile_cons]
    by_cases hp : p c = true
    · rw [if_pos hp]
      simp only [List.length_cons]
      omega
    · rw [if_neg hp]

/-- Consuming one line strictly shortens the stream. -/
theorem getLine_rest_lt (s line rest : List Char)
    (h : getLine s = some (line, rest)) : rest.length < s.length := by
  cases s with
  | nil => simp [getLine] at h
  | cons c t =>
    simp only [getLine] at h
    cases h
    have h1 : ((c :: t).dropWhile (fun x => x ≠ '\n')).length ≤ (c :: t).length :=
      dropWhile_length_le _ _
    simp only [List.length_drop]
    simp only [List.length_cons] at h1 ⊢
    omega

/-- A `skip` outcome of `summaryStep` strictly shortens the stream. -/
theorem summaryStep_skip_lt (nsmpl : Nat) (stream rest : List Char)
    (h : summaryStep nsmpl stream = SummaryStep.skip rest) :
    rest.length < stream.length := by
  unfold summaryStep at h
  cases hg : getLine stream with
  | none => rw [hg] at h; cases h
  | some pr =>
    obtain ⟨line, r⟩ := pr
    rw [hg] at h
    simp only at h
    split at h
    · cases h
    · split at h
      · cases h
      · split at h
        · cases h
        · split at h
          · cases h
            exact getLine_rest_lt stream line rest hg
          · split at h
            · cases h
            · split at h
              · cases h
              · split at h
                · cases h
                · cases h

/-- The fuelled loop is insensitive to the exact fuel as long as the fuel
exceeds the stream length. -/
theorem summaryReadAux_congr : ∀ (f1 f2 nsmpl : Nat) (stream : List Char),
    stream.length < f1 → stream.length < f2 →
    summaryReadAux f1 nsmpl stream = summaryReadAux f2 nsmpl stream := by
  intro f1
  induction f1 with
  | zero => intro f2 n s h1 _; exact absurd h1 (Nat.not_lt_zero _)
  | succ f1 ih =>
    intro f2 n s h1 h2
    cases f2 with
    | zero => exact absurd h2 (Nat.not_lt_zero _)
    | succ f2 =>
      simp only [summaryReadAux]
      cases hs : summaryStep n s with
      | eof => rfl
      | fatal m => rfl
      | paired i a b rest => rfl
      | skip rest =>
        have hlt := summaryStep_skip_lt n s rest hs
        exact ih f2 n rest (by omega) (by omega)

/-- Unfolding `summaryRead` across one `skip`: when the look-ahead peek
does not confirm the expected companion, the reader continues on the
rest of the stream. -/
theorem summaryRead_skip (nsmpl : Nat) (stream rest : List Char)
    (h : summaryStep nsmpl stream = SummaryStep.skip rest) :
    summaryRead nsmpl stream = summaryRead nsmpl rest := by
  have hlt := summaryStep_skip_lt nsmpl stream rest h
  unfold summaryRead
  simp only [summaryReadAux, h]
  exact summaryReadAux_congr stream.length (rest.length + 1) nsmpl rest
    (by omega) (by omega)

/-- C2, counterexample: on a summary table whose first line `foo-A` is
followed by a line `bar-A` that does not share its probe-set prefix, the
claim demands a fatal error; the code instead silently skips the `foo-A`
line and completes the step on the later `bar-A`/`bar-B` pair, returning
probe set `bar` with intensities 2 and 3 and no error. -/
theorem c2_summary_companion_counterexample :
    summaryRead 1 exSummaryStream =
      SummaryResult.ok "bar".toList ["2".toList] ["3".toList] [] ∧
    ∀ msg, summaryRead 1 exSummaryStream ≠ SummaryResult.fatal msg := by
  refine ⟨by decide, fun msg h => ?_⟩
  rw [show summaryRead 1 exSummaryStream =
      SummaryResult.ok "bar".toList ["2".toList] ["3".toList] [] from by decide] at h
  exact SummaryResult.noConfusion h

/-- C2 (amended): in text mode, when the summary table's current line
ends in "-A" (with acceptable column count and identifier length) and
the look-ahead peek does not confirm a companion — the following bytes
are too few, do not share the probe-set prefix, or do not carry "-B" at
the matching positions — the reader does not fail: it silently abandons
the current "-A" line and continues scanning from the next line; and an
absent following line ends the iteration non-fatally (an empty stream
yields plain end-of-iteration). A fatal error arises in this scanner
only when a scanned line itself has the wrong column count, does not end
in "-A", or exceeds the identifier length bound. -/
theorem c2_summary_companion_skip (nsmpl : Nat) (stream line rest id0 : List Char)
    (hget : getLine stream = some (line, rest))
    (hid : (splitTab line).getD 0 [] = id0)
    (hcols : (splitTab line).length = 1 + nsmpl)
    (hdash : id0.getD (id0.length - 2) '\x00' = '-')
    (hA : id0.getD (id0.length - 1) '\x00' = 'A')
    (hlen : id0.length - 2 ≤ MAX_LENGTH_PROBE_SET_ID)
    (hmis : rest.length < id0.length ∨
      (rest.take id0.length).take (id0.length - 2) ≠ id0.take (id0.length - 2) ∨
      (rest.take id0.length).getD (id0.length - 2) '\x00' ≠ '-' ∨
      (rest.take id0.length).getD (id0.length - 1) '\x00' ≠ 'B') :
    summaryRead nsmpl stream = summaryRead nsmpl rest ∧
    summaryRead nsmpl [] = SummaryResult.eof := by
  refine ⟨?_, rfl⟩
  apply summaryRead_skip
  unfold summaryStep
  rw [hget]
  simp only [hid, hcols, hdash, hA]
  rw [if_neg (by simp), if_neg (by simp)]
  rw [if_neg (by omega)]
  rw [if_pos]
  rcases hmis with hm | hm | hm | hm
  · exact Or.inl (by omega)
  · exact Or.inr (Or.inl hm)
  · exact Or.inr (Or.inr (Or.inl hm))
  · exact Or.inr (Or.inr (Or.inr hm))

/-- C2, witness: the skip behaviour instantiated on the concrete summary
stream whose first line `foo-A` has no matching companion. -/
theorem c2_summary_companion_skip_witness :
    summaryRead 1 exSummaryStream = summaryRead 1 ("bar-A\t2\nbar-B\t3\n".toList) ∧
    summaryRead 1 [] = SummaryResult.eof :=
  c2_summary_companion_skip 1 exSummaryStream "foo-A\t1".toList
    "bar-A\t2\nbar-B\t3\n".toList "foo-A".toList (by decide) (by decide) (by decide)
    (by decide) (by decide) (by decide) (by decide)

/-- C3, counterexample: `xda_cel_init` reads its header fields with raw
`read_bytes` into native integers, not through the big-endian `read_long`
primitive. On the concrete stream `xdaLeStream` a little-endian host
accepts magic 64 and decodes `num_rows = 2` from the bytes 2,0,0,0 —
whose big-endian value is 33554432, not 2 — while a big-endian host
rejects the very same stream at the magic check: the decoding of the XDA
header fields depends on the host byte order, contradicting the claim
that every multi-byte scalar is decoded as big-endian independently of
the host. -/
theorem c3_xda_native_order_counterexample :
    (xda_cel_init_header true xdaLeStream).toOption.map XdaHeader.num_rows = some 2 ∧
    beU32 2 0 0 0 = 33554432 ∧ (2 : Nat) ≠ 33554432 ∧
    (xda_cel_init_header false xdaLeStream).toOption = none ∧
    (xda_cel_init_header true xdaLeStream).toOption ≠
      (xda_cel_init_header false xdaLeStream).toOption := by
  refine ⟨by decide, by decide, by decide, by decide, ?_⟩
  rw [show (xda_cel_init_header false xdaLeStream).toOption = none from by decide]
  rw [show (xda_cel_init_header true xdaLeStream).toOption =
      some ⟨4, 2, 3, 6, 0, [], 0, [], 0, [], 0, 0, 0, 0⟩ from by decide]
  exact Option.noConfusion

/-- C3 (amended): multi-byte scalars read through the primitive stream
decoder (`read_long`, and with it `read_float` and the per-code-unit
`read_string16`) are decoded big-endian with no dependence on the host
byte order — `read_long` takes no host parameter at all; the XDA header
fields, however, are read with raw `read_bytes` into native integers, so
their value is the host-order interpretation of the stream bytes, which
differs from the big-endian one on a little-endian host. -/
theorem c3_endianness_of_reads (b0 b1 b2 b3 : Nat) (rest : List Nat) (hostLE : Bool) :
    read_long (b0 :: b1 :: b2 :: b3 :: rest) = some (beU32 b0 b1 b2 b3, rest) ∧
    read_i32_native hostLE (b0 :: b1 :: b2 :: b3 :: rest) =
      some (nativeU32 hostLE b0 b1 b2 b3, rest) ∧
    nativeU32 false b0 b1 b2 b3 = beU32 b0 b1 b2 b3 ∧
    nativeU32 true b0 b1 b2 b3 = leU32 b0 b1 b2 b3 ∧
    nativeU32 true 2 0 0 0 ≠ beU32 2 0 0 0 :=
  ⟨rfl, rfl, rfl, rfl, by decide⟩

/-- Numeric bounds for the size value at signals A = 100, B = 25: it lies
strictly between 5.5 and 6 (its exact value is log2(2500)/2 ≈ 5.6439). -/
theorem signalSize_hundred_bounds :
    (11 : ℝ) / 2 < signalSize 100 25 ∧ signalSize 100 25 < 6 := by
  have hL : (0 : ℝ) < Real.log 2 := Real.log_pos (by norm_num)
  have hLne : Real.log 2 ≠ 0 := ne_of_gt hL
  have hsum : Real.log (100 : ℝ) + Real.log 25 = Real.log 2500 := by
    rw [show (2500 : ℝ) = 100 * 25 by norm_num,
      Real.log_mul (by norm_num) (by norm_num)]
  have h1 : (11 : ℝ) * Real.log 2 < Real.log 2500 := by
    have h : Real.log 2048 < Real.log 2500 :=
      Real.log_lt_log (x := 2048) (y := 2500) (by norm_num) (by norm_num)
    rwa [show (2048 : ℝ) = 2 ^ (11 : ℕ) by norm_num, Real.log_pow,
      Nat.cast_ofNat] at h
  have h2 : Real.log 2500 < 12 * Real.log 2 := by
    have h : Real.log 2500 < Real.log 4096 :=
      Real.log_lt_log (x := 2500) (y := 4096) (by norm_num) (by norm_num)
    rwa [show (4096 : ℝ) = 2 ^ (12 : ℕ) by norm_num, Real.log_pow,
      Nat.cast_ofNat] at h
  have e : signalSize 100 25 = Real.log 2500 / (2 * Real.log 2) := by
    unfold signalSize log2f
    rw [mul_one_div, mul_one_div, mul_one_div, div_add_div_same, hsum, div_div,
      mul_comm (Real.log 2) 2]
  rw [e]
  constructor
  · rw [lt_div_iff₀ (by positivity)]
    nlinarith [h1]
  · rw [div_lt_iff₀ (by positivity)]
    nlinarith [h2]

/-- C4, counterexample: for signals A = 100, B = 25 the computed size
value is log2(2500)/2, strictly greater than 5.5 — more than 2 above the
claimed approximation 3.3219, so `dim2 ≈ 3.3219` is false (the correct
value is ≈ 5.6439). -/
theorem c4_dim2_value_counterexample :
    (33219 / 10000 : ℝ) + 2 < signalSize 100 25 ∧ signalSize 100 25 < 6 := by
  have h := signalSize_hundred_bounds
  constructor
  · linarith [h.1]
  · exact h.2

/-- C4 (amended): for raw two-channel signals the iterator computes
`dim1 = log2 A - log2 B` and `dim2 = (log2 A + log2 B) / 2`, identically
in the binary "Signal A/B" branch and the text summary branch; for
A = 100, B = 25 this yields `dim1 = 2` and
`dim2 = log2(100·25)/2 = log2 2500 / 2 ≈ 5.6439` (strictly between 5.5
and 6), not 3.3219. -/
theorem c4_signal_normalisation (a b : ℝ) :
    signalDelta a b = Real.logb 2 a - Real.logb 2 b ∧
    signalSize a b = (Real.logb 2 a + Real.logb 2 b) / 2 ∧
    summaryDelta a b = signalDelta a b ∧
    summarySize a b = signalSize a b ∧
    signalDelta 100 25 = 2 ∧
    signalSize 100 25 = Real.logb 2 2500 / 2 ∧
    (11 : ℝ) / 2 < signalSize 100 25 ∧ signalSize 100 25 < 6 := by
  have hlogb : ∀ x : ℝ, log2f x = Real.logb 2 x := by
    intro x
    rw [log2f, Real.logb, mul_one_div]
  refine ⟨?_, ?_, rfl, rfl, ?_, ?_, signalSize_hundred_bounds.1,
    signalSize_hundred_bounds.2⟩
  · rw [signalDelta, hlogb, hlogb]
  · rw [signalSize, hlogb, hlogb]
    ring
  · rw [signalDelta, hlogb, hlogb, ← Real.logb_div (by norm_num) (by norm_num)]
    rw [show (100 : ℝ) / 25 = 2 ^ (2 : ℕ) by norm_num, Real.logb_pow,
      Real.logb_self_eq_one (b := 2) (by norm_num)]
    norm_num
  · rw [signalSize, hlogb, hlogb, ← Real.logb_mul (by norm_num) (by norm_num)]
    norm_num
    ring

/-- The accumulation loop of `adjust_clusters` leaves the probe-set
identifier and the copy-number marker untouched. -/
theorem foldl_adjustStep_id {α : Type} [Field α] (obs : List (Int × α × α)) :
    ∀ s : SnpT α, (obs.foldl adjustStep s).probe_set_id = s.probe_set_id ∧
      (obs.foldl adjustStep s).copynumber = s.copynumber := by
  induction obs with
  | nil => intro s; exact ⟨rfl, rfl⟩
  | cons o rest ih =>
    intro s
    rw [List.foldl_cons]
    obtain ⟨h1, h2⟩ := ih (adjustStep s o)
    rw [h1, h2]
    unfold adjustStep
    by_cases hA : o.1 = GT_AA
    · rw [if_pos hA]; exact ⟨rfl, rfl⟩
    · rw [if_neg hA]
      by_cases hB : o.1 = GT_AB
      · rw [if_pos hB]; exact ⟨rfl, rfl⟩
      · rw [if_neg hB]
        by_cases hC : o.1 = GT_BB
        · rw [if_pos hC]; exact ⟨rfl, rfl⟩
        · rw [if_neg hC]; exact ⟨rfl, rfl⟩

/-- Effect of the accumulation loop of `adjust_clusters` on the AA
cluster: the two means gain the summed AA-called coordinates, the
pseudo-count gains the AA call count, and the other four fields are
untouched. -/
theorem foldl_adjustStep_aa {α : Type} [Field α] (obs : List (Int × α × α)) :
    ∀ s : SnpT α, (obs.foldl adjustStep s).aa =
      ⟨s.aa.xm + sumDim1 GT_AA obs, s.aa.xss, s.aa.k + countCall GT_AA obs, s.aa.v,
       s.aa.ym + sumDim2 GT_AA obs, s.aa.yss, s.aa.xyss⟩ := by
  induction obs with
  | nil => intro s; simp [sumDim1, sumDim2, countCall]
  | cons o rest ih =>
    intro s
    rw [List.foldl_cons, ih]
    by_cases hA : o.1 = GT_AA
    · have hstep : adjustStep s o = { s with aa := { s.aa with
          k := s.aa.k + 1, xm := s.aa.xm + o.2.1, ym := s.aa.ym + o.2.2 } } := by
        unfold adjustStep; rw [if_pos hA]
      have hf1 : sumDim1 GT_AA (o :: rest) = o.2.1 + sumDim1 GT_AA rest := by
        simp [sumDim1, List.filter_cons, hA]
      have hf2 : sumDim2 GT_AA (o :: rest) = o.2.2 + sumDim2 GT_AA rest := by
        simp [sumDim2, List.filter_cons, hA]
      have hf3 : countCall GT_AA (o :: rest) = 1 + countCall GT_AA rest := by
        simp [countCall, List.filter_cons, hA]
        ring
      rw [hstep, hf1, hf2, hf3]
      simp only [ClusterT.mk.injEq, and_true, true_and]
      refine ⟨by ring, by ring, by ring⟩
    · have hstep : (adjustStep s o).aa = s.aa := by
        unfold adjustStep
        rw [if_neg hA]
        by_cases hB : o.1 = GT_AB
        · rw [if_pos hB]
        · rw [if_neg hB]
          by_cases hC : o.1 = GT_BB
          · rw [if_pos hC]
          · rw [if_neg hC]
      have hf1 : sumDim1 GT_AA (o :: rest) = sumDim1 GT_AA rest := by
        simp [sumDim1, List.filter_cons, hA]
      have hf2 : sumDim2 GT_AA (o :: rest) = sumDim2 GT_AA rest := by
        simp [sumDim2, List.filter_cons, hA]
      have hf3 : countCall GT_AA (o :: rest) = countCall GT_AA rest := by
        simp [countCall, List.filter_cons, hA]
      rw [hstep, hf1, hf2, hf3]

/-- Effect of the accumulation loop of `adjust_clusters` on the AB
cluster, mirror of the AA case. -/
theorem foldl_adjustStep_ab {α : Type} [Field α] (obs : List (Int × α × α)) :
    ∀ s : SnpT α, (obs.foldl adjustStep s).ab =
      ⟨s.ab.xm + sumDim1 GT_AB obs, s.ab.xss, s.ab.k + countCall GT_AB obs, s.ab.v,
       s.ab.ym + sumDim2 GT_AB obs, s.ab.yss, s.ab.xyss⟩ := by
  induction obs with
  | nil => intro s; simp [sumDim1, sumDim2, countCall]
  | cons o rest ih =>
    intro s
    rw [List.foldl_cons, ih]
    by_cases hB : o.1 = GT_AB
    · have hA : ¬(o.1 = GT_AA) := by rw [hB]; decide
      have hstep : adjustStep s o = { s with ab := { s.ab with
          k := s.ab.k + 1, xm := s.ab.xm + o.2.1, ym := s.ab.ym + o.2.2 } } := by
        unfold adjustStep; rw [if_neg hA, if_pos hB]
      have hf1 : sumDim1 GT_AB (o :: rest) = o.2.1 + sumDim1 GT_AB rest := by
        simp [sumDim1, List.filter_cons, hB]
      have hf2 : sumDim2 GT_AB (o :: rest) = o.2.2 + sumDim2 GT_AB rest := by
        simp [sumDim2, List.filter_cons, hB]
      have hf3 : countCall GT_AB (o :: rest) = 1 + countCall GT_AB rest := by
        simp [countCall, List.filter_cons, hB]
        ring
      rw [hstep, hf1, hf2, hf3]
      simp only [ClusterT.mk.injEq, and_true, true_and]
      refine ⟨by ring, by ring, by ring⟩
    · have hstep : (adjustStep s o).ab = s.ab := by
        unfold adjustStep
        by_cases hA : o.1 = GT_AA
        · rw [if_pos hA]
        · rw [if_neg hA, if_neg hB]
          by_cases hC : o.1 = GT_BB
          · rw [if_pos hC]
          · rw [if_neg hC]
      have hf1 : sumDim1 GT_AB (o :: rest) = sumDim1 GT_AB rest := by
        simp [sumDim1, List.filter_cons, hB]
      have hf2 : sumDim2 GT_AB (o :: rest) = sumDim2 GT_AB rest := by
        simp [sumDim2, List.filter_cons, hB]
      have hf3 : countCall GT_AB (o :: rest) = countCall GT_AB rest := by
        simp [countCall, List.filter_cons, hB]
      rw [hstep, hf1, hf2, hf3]

/-- Effect of the accumulation loop of `adjust_clusters` on the BB
cluster, mirror of the AA case. -/
theorem foldl_adjustStep_bb {α : Type} [Field α] (obs : List (Int × α × α)) :
    ∀ s : SnpT α, (obs.foldl adjustStep s).bb =
      ⟨s.bb.xm + sumDim1 GT_BB obs, s.bb.xss, s.bb.k + countCall GT_BB obs, s.bb.v,
       s.bb.ym + sumDim2 GT_BB obs, s.bb.yss, s.bb.xyss⟩ := by
  induction obs with
  | nil => intro s; simp [sumDim1, sumDim2, countCall]
  | cons o rest ih =>
    intro s
    rw [List.foldl_cons, ih]
    by_cases hC : o.1 = GT_BB
    · have hA : ¬(o.1 = GT_AA) := by rw [hC]; decide
      have hB : ¬(o.1 = GT_AB) := by rw [hC]; decide
      have hstep : adjustStep s o = { s with bb := { s.bb with
          k := s.bb.k + 1, xm := s.bb.xm + o.2.1, ym := s.bb.ym + o.2.2 } } := by
        unfold adjustStep; rw [if_neg hA, if_neg hB, if_pos hC]
      have hf1 : sumDim1 GT_BB (o :: rest) = o.2.1 + sumDim1 GT_BB rest := by
        simp [sumDim1, List.filter_cons, hC]
      have hf2 : sumDim2 GT_BB (o :: rest) = o.2.2 + sumDim2 GT_BB rest := by
        simp [sumDim2, List.filter_cons, hC]
      have hf3 : countCall GT_BB (o :: rest) = 1 + countCall GT_BB rest := by
        simp [countCall, List.filter_cons, hC]
        ring
      rw [hstep, hf1, hf2, hf3]
      simp only [ClusterT.mk.injEq, and_true, true_and]
      refine ⟨by ring, by ring, by ring⟩
    · have hstep : (adjustStep s o).bb = s.bb := by
        unfold adjustStep
        by_cases hA : o.1 = GT_AA
        · rw [if_pos hA]
        · rw [if_neg hA]
          by_cases hB : o.1 = GT_AB
          · rw [if_pos hB]
          · rw [if_neg hB, if_neg hC]
      have hf1 : sumDim1 GT_BB (o :: rest) = sumDim1 GT_BB rest := by
        simp [sumDim1, List.filter_cons, hC]
      have hf2 : sumDim2 GT_BB (o :: rest) = sumDim2 GT_BB rest := by
        simp [sumDim2, List.filter_cons, hC]
      have hf3 : countCall GT_BB (o :: rest) = countCall GT_BB rest := by
        simp [countCall, List.filter_cons, hC]
      rw [hstep, hf1, hf2, hf3]

/-- C5: `adjust_clusters` recomputes, for each of the three clusters
independently and for each of the two dimensions, the posterior mean as
`(prior_mean * 0.2 + Σ of observed values called in the cluster) /
(0.2 + number of calls in the cluster)`; with zero supporting calls this
degenerates to `prior_mean * 0.2 / 0.2`; and the spec's worked example —
prior mean 10, two AA observations 8 and 12 — yields posterior mean
`(2 + 8 + 12) / (0.2 + 2) = 10`. -/
theorem c5_cluster_adjustment (obs : List (Int × ℚ × ℚ)) (snp : SnpT ℚ) :
    ((adjust_clusters obs snp).aa.xm =
      (snp.aa.xm * (1 / 5) + sumDim1 GT_AA obs) / (1 / 5 + countCall GT_AA obs)) ∧
    ((adjust_clusters obs snp).aa.ym =
      (snp.aa.ym * (1 / 5) + sumDim2 GT_AA obs) / (1 / 5 + countCall GT_AA obs)) ∧
    ((adjust_clusters obs snp).ab.xm =
      (snp.ab.xm * (1 / 5) + sumDim1 GT_AB obs) / (1 / 5 + countCall GT_AB obs)) ∧
    ((adjust_clusters obs snp).ab.ym =
      (snp.ab.ym * (1 / 5) + sumDim2 GT_AB obs) / (1 / 5 + countCall GT_AB obs)) ∧
    ((adjust_clusters obs snp).bb.xm =
      (snp.bb.xm * (1 / 5) + sumDim1 GT_BB obs) / (1 / 5 + countCall GT_BB obs)) ∧
    ((adjust_clusters obs snp).bb.ym =
      (snp.bb.ym * (1 / 5) + sumDim2 GT_BB obs) / (1 / 5 + countCall GT_BB obs)) ∧
    (adjust_clusters [(GT_AA, 8, 0), (GT_AA, 12, 0)] exSnpQ).aa.xm = 10 := by
  refine ⟨?_, ?_, ?_, ?_, ?_, ?_, by
    simp [adjust_clusters, adjustDivide, adjustPrior, adjustStep, exSnpQ,
      exClusterQ, GT_AA, GT_AB, GT_BB]
    norm_num⟩ <;>
    simp only [adjust_clusters, adjustDivide, adjustPrior, foldl_adjustStep_aa,
      foldl_adjustStep_ab, foldl_adjustStep_bb]

/-- C10: `adjust_clusters` changes only the two mean fields and the mean
pseudo-count of each cluster. The variance fields `xss`/`yss`, the
variance pseudo-count `v`, the covariance `xyss`, the probe-set
identifier and the copy-number marker are unchanged, while each
cluster's `k` is overwritten with `0.2` plus its supporting call count
(destroying the stored pseudo-count). -/
theorem c10_adjustment_frame (obs : List (Int × ℚ × ℚ)) (snp : SnpT ℚ) :
    (adjust_clusters obs snp).probe_set_id = snp.probe_set_id ∧
    (adjust_clusters obs snp).copynumber = snp.copynumber ∧
    (adjust_clusters obs snp).aa.xss = snp.aa.xss ∧
    (adjust_clusters obs snp).aa.yss = snp.aa.yss ∧
    (adjust_clusters obs snp).aa.v = snp.aa.v ∧
    (adjust_clusters obs snp).aa.xyss = snp.aa.xyss ∧
    (adjust_clusters obs snp).aa.k = 1 / 5 + countCall GT_AA obs ∧
    (adjust_clusters obs snp).ab.xss = snp.ab.xss ∧
    (adjust_clusters obs snp).ab.yss = snp.ab.yss ∧
    (adjust_clusters obs snp).ab.v = snp.ab.v ∧
    (adjust_clusters obs snp).ab.xyss = snp.ab.xyss ∧
    (adjust_clusters obs snp).ab.k = 1 / 5 + countCall GT_AB obs ∧
    (adjust_clusters obs snp).bb.xss = snp.bb.xss ∧
    (adjust_clusters obs snp).bb.yss = snp.bb.yss ∧
    (adjust_clusters obs snp).bb.v = snp.bb.v ∧
    (adjust_clusters obs snp).bb.xyss = snp.bb.xyss ∧
    (adjust_clusters obs snp).bb.k = 1 / 5 + countCall GT_BB obs := by
  have hid := foldl_adjustStep_id obs (adjustPrior snp)
  refine ⟨?_, ?_, ?_, ?_, ?_, ?_, ?_, ?_, ?_, ?_, ?_, ?_, ?_, ?_, ?_, ?_, ?_⟩
  · simp only [adjust_clusters, adjustDivide, hid.1]
    rfl
  · simp only [adjust_clusters, adjustDivide, hid.2]
    rfl
  all_goals
    simp only [adjust_clusters, adjustDivide, adjustPrior, foldl_adjustStep_aa,
      foldl_adjustStep_ab, foldl_adjustStep_bb]

/-- C6: for a haploid probe set (copy-number marker 1, the case of every
haploid model lacking a heterozygous cluster), `compute_baf_lrr`
synthesises the AB cluster position as the arithmetic midpoint of the AA
and BB positions in both polar coordinates; and the projection is a pure
function of the (const) model and samples — it does not mutate the
model, so repeated calls return identical outputs. -/
theorem c6_haploid_ab_midpoint (is_birdseed : Bool) (snp : SnpT ℝ)
    (samples : List (ℝ × ℝ)) (h : snp.copynumber = 1) :
    (projectClusters is_birdseed snp).2.1.1 =
      ((projectClusters is_birdseed snp).1.1 +
        (projectClusters is_birdseed snp).2.2.1) / 2 ∧
    (projectClusters is_birdseed snp).2.1.2 =
      ((projectClusters is_birdseed snp).1.2 +
        (projectClusters is_birdseed snp).2.2.2) / 2 ∧
    compute_baf_lrr_inputs is_birdseed snp samples =
      compute_baf_lrr_inputs is_birdseed snp samples := by
  refine ⟨?_, ?_, rfl⟩ <;>
    · simp only [projectClusters, h, if_pos]
      ring

/-- C6, witness: the midpoint property instantiated on the concrete
haploid model `exSnpR` with an empty sample list. -/
theorem c6_haploid_ab_midpoint_witness :
    (projectClusters true exSnpR).2.1.1 =
      ((projectClusters true exSnpR).1.1 + (projectClusters true exSnpR).2.2.1) / 2 ∧
    (projectClusters true exSnpR).2.1.2 =
      ((projectClusters true exSnpR).1.2 + (projectClusters true exSnpR).2.2.2) / 2 ∧
    compute_baf_lrr_inputs true exSnpR [] = compute_baf_lrr_inputs true exSnpR [] :=
  c6_haploid_ab_midpoint true exSnpR [] rfl
